import Mathlib

/-!
Shallow embedding of the SophonPatcher chunk-store reconstruction and
diff-plan engine.

Sources embedded:
- src/patcher/src/action/ldiff.rs      (make_diff_map)
- src/sophon/src/sophon/ldiff.rs       (ldiff_file output naming)
- src/sophon/src/sophon/chunk.rs       (chunk_diff: database selection,
                                        index-entry decoding, slice reading,
                                        staging paths, asset assembly)

Machine integers: proto i64 fields are modelled as Int, usize/u64 values as
Nat; the Rust cast `as usize` of an i64 is modelled by reduction mod 2^64.
Bytes are modelled as Nat (values 0..255 in practice). File-system state is
modelled by explicit maps (chunk name -> staged payload) and by path strings
built with an explicit separator, mirroring Path::join for relative
components.
-/

namespace SophonPatcher

/-- Proto message field set, as used by the sources (the prost-generated
proto modules are not in the tree; the fields below are exactly those the
embedded functions read). `Asset` is `proto::sophon::Asset`. -/
structure Asset where
  chunk_file_name : String
  original_file_size : Int
  original_file_path : String
  hdiff_file_size : Int
  hdiff_file_in_chunk_offset : Int
deriving DecidableEq, Repr

/-- The `asset_data` payload of a manifest asset group: its list of ldiff
assets. -/
structure AssetData where
  assets : List Asset
deriving DecidableEq, Repr

/-- One asset group of `proto::sophon::SophonManifestProto`. -/
structure AssetGroup where
  asset_name : String
  asset_size : Int
  asset_data : Option AssetData
deriving DecidableEq, Repr

/-- `proto::sophon::SophonManifestProto`: the ldiff manifest. -/
structure SophonManifestProto where
  assets : List AssetGroup
deriving DecidableEq, Repr

/-- `serialize::hdiffmap::HDiffData`: one diff-plan entry. -/
structure HDiffData where
  source_file_name : String
  target_file_name : String
  patch_file_name : String
deriving DecidableEq, Repr

/-- The per-chunk decision of `make_diff_map`
(src/patcher/src/action/ldiff.rs lines 204-220): the body of the inner
`filter_map` closure, over one ldiff asset of a group with the given
`asset_name` and `asset_size`. -/
def mkDiffEntry (asset_name : String) (asset_size : Int) (a : Asset) :
    Option HDiffData :=
  if a.original_file_size ≠ 0 then
    some { source_file_name := a.original_file_path
           target_file_name := asset_name
           patch_file_name := asset_name ++ ".hdiff" }
  else if a.hdiff_file_size ≠ asset_size then
    some { source_file_name := a.original_file_path
           target_file_name := asset_name
           patch_file_name := asset_name }
  else
    none

/-- Availability test of `make_diff_map` line 203:
`chunk_names.iter().any(|name| name == &asset.chunk_file_name)`. -/
def chunkAvailable (chunk_names : List String) (a : Asset) : Bool :=
  chunk_names.any (fun name => name == a.chunk_file_name)

/-- `make_diff_map` (src/patcher/src/action/ldiff.rs lines 192-229): iterate
every asset group; groups without `asset_data` are dropped; within a group,
keep the ldiff assets whose chunk file is among `chunk_names` and map each
through the per-chunk decision; concatenate all groups' entries. -/
def make_diff_map (manifest : SophonManifestProto) (chunk_names : List String) :
    List HDiffData :=
  (manifest.assets.filterMap (fun asset =>
    match asset.asset_data with
    | some chunk =>
        some ((chunk.assets.filter (chunkAvailable chunk_names)).filterMap
          (fun a => mkDiffEntry asset.asset_name asset.asset_size a))
    | none => none)).flatten

/-- Output-name computation of `ldiff_file`
(src/sophon/src/sophon/ldiff.rs lines 88-89): the extracted payload is
written to the asset name, with ".hdiff" appended unless the asset's
original file size is zero. -/
def ldiff_file_output_name (a : Asset) (asset_name : String) : String :=
  let extension := if a.original_file_size = 0 then "" else ".hdiff"
  asset_name ++ extension

/-- One entry of `fs::read_dir` as used by `chunk_diff`
(src/sophon/src/sophon/chunk.rs lines 36-43): only the file name and the
directory flag of `file_type()` are consulted (entries are pre-filtered to
regular files, so `is_dir` is false for every collected entry). -/
structure DirEntry where
  file_name : String
  is_dir : Bool
deriving DecidableEq, Repr

/-- Database selection of `chunk_diff` (src/sophon/src/sophon/chunk.rs lines
45-67): the FIRST collected entry that is not a directory names the single
leveldb store that is opened, `<file_name>_db`; `none` models the fatal
"No database found" error when the directory holds no file. -/
def chunk_diff_database (chunk_entries : List DirEntry) : Option String :=
  (chunk_entries.find? (fun e => !e.is_dir)).map
    (fun e => e.file_name ++ "_db")

/-- The index store iterated while processing one blob-file entry inside the
parallel loop of `chunk_diff` (src/sophon/src/sophon/chunk.rs lines 77-79):
the loop body reads the one `database` opened before the loop, so the store
is the same for every entry and does not depend on the entry processed. -/
def chunk_diff_database_for_entry (chunk_entries : List DirEntry)
    (entry : DirEntry) : Option String :=
  chunk_diff_database chunk_entries

/-- Path join for the relative components this engine appends: mirrors
`Path::join` / `format!` with a separator (chunk names and "chunk_tmp" are
relative, so Rust's absolute-replacement case never triggers). -/
def pathJoin (base child : String) : String := base ++ "/" ++ child

/-- `chunk_diff`'s staging directory (src/sophon/src/sophon/chunk.rs line
70): `output_path.join("chunk_tmp")`. -/
def chunk_diff_temp_path (output_path : String) : String :=
  pathJoin output_path "chunk_tmp"

/-- Staged-chunk path on the memory-mapped extraction path
(src/sophon/src/sophon/chunk.rs line 137): `temp_path.join(&key)`. -/
def mmap_staged_path (output_path key : String) : String :=
  pathJoin (chunk_diff_temp_path output_path) key

/-- Staged-chunk path on the buffered-reader extraction path
(src/sophon/src/sophon/chunk.rs line 375):
`Path::new("chunk_tmp").join(key)` — a path relative to the process's
current directory, not under `output_path`. -/
def bufreader_staged_path (key : String) : String := pathJoin "chunk_tmp" key

/-- Path the assembler reads a staged chunk from
(src/sophon/src/sophon/chunk.rs lines 227 and 247):
`temp_path.join(&chunk.chunk_name)`. -/
def assembler_chunk_path (output_path chunk_name : String) : String :=
  pathJoin (chunk_diff_temp_path output_path) chunk_name

/-- The large-file threshold of `chunk_diff`
(src/sophon/src/sophon/chunk.rs line 131): 10 MiB. -/
def LARGE_FILE_THRESHOLD : Nat := 10 * 1024 * 1024

/-- Memory-mapped slice read (src/sophon/src/sophon/chunk.rs lines 135-136):
the slice `mmap[offset..offset+size]`, taken only after the bounds check
`offset + size <= mmap.len()`; out of bounds, nothing is produced. -/
def mmapReadSlice (blob : List Nat) (offset size : Nat) : Option (List Nat) :=
  if offset + size ≤ blob.length then
    some ((blob.drop offset).take size)
  else
    none

/-- Buffered slice read of `process_with_bufreader`
(src/sophon/src/sophon/chunk.rs lines 358-373): seek to `offset`, then
`read_exact` of `size` bytes; `read_exact` succeeds exactly when `size`
bytes remain past the seek position, else the chunk is skipped. -/
def bufReadSlice (blob : List Nat) (offset size : Nat) : Option (List Nat) :=
  if size ≤ (blob.drop offset).length then
    some ((blob.drop offset).take size)
  else
    none

/-- The slice-read dispatch of `chunk_diff`
(src/sophon/src/sophon/chunk.rs lines 131, 179-182): blobs above the 10 MiB
threshold are memory mapped, smaller blobs go through the buffered reader
(the further mmap-failure fallback is an I/O event outside the byte model). -/
def readChunkSlice (blob : List Nat) (offset size : Nat) : Option (List Nat) :=
  if blob.length > LARGE_FILE_THRESHOLD then
    mmapReadSlice blob offset size
  else
    bufReadSlice blob offset size

/-- Continuation-byte test of UTF-8 validation: bytes 0x80-0xBF. -/
def utf8Cont (b : Nat) : Bool := decide (0x80 ≤ b ∧ b ≤ 0xBF)

/-- UTF-8 decoder mirroring Rust's `String::from_utf8` validation (RFC 3629:
shortest form, no surrogates, max U+10FFFF), written with an explicit fuel
argument so it is structurally recursive; each step consumes at least one
byte, so fuel equal to the byte count never runs out. -/
def utf8DecodeGo : Nat → List Nat → Option (List Char)
  | _, [] => some []
  | 0, _ :: _ => none
  | fuel + 1, b0 :: rest =>
    if b0 ≤ 0x7F then
      (utf8DecodeGo fuel rest).map (fun cs => Char.ofNat b0 :: cs)
    else if 0xC2 ≤ b0 ∧ b0 ≤ 0xDF then
      match rest with
      | b1 :: r =>
        if utf8Cont b1 then
          (utf8DecodeGo fuel r).map (fun cs =>
            Char.ofNat ((b0 - 0xC0) * 0x40 + (b1 - 0x80)) :: cs)
        else none
      | [] => none
    else if b0 = 0xE0 then
      match rest with
      | b1 :: b2 :: r =>
        if decide (0xA0 ≤ b1 ∧ b1 ≤ 0xBF) && utf8Cont b2 then
          (utf8DecodeGo fuel r).map (fun cs =>
            Char.ofNat ((b1 - 0x80) * 0x40 + (b2 - 0x80)) :: cs)
        else none
      | _ => none
    else if (0xE1 ≤ b0 ∧ b0 ≤ 0xEC) ∨ (0xEE ≤ b0 ∧ b0 ≤ 0xEF) then
      match rest with
      | b1 :: b2 :: r =>
        if utf8Cont b1 && utf8Cont b2 then
          (utf8DecodeGo fuel r).map (fun cs =>
            Char.ofNat ((b0 - 0xE0) * 0x1000 + (b1 - 0x80) * 0x40 +
              (b2 - 0x80)) :: cs)
        else none
      | _ => none
    else if b0 = 0xED then
      match rest with
      | b1 :: b2 :: r =>
        if decide (0x80 ≤ b1 ∧ b1 ≤ 0x9F) && utf8Cont b2 then
          (utf8DecodeGo fuel r).map (fun cs =>
            Char.ofNat (0xD000 + (b1 - 0x80) * 0x40 + (b2 - 0x80)) :: cs)
        else none
      | _ => none
    else if b0 = 0xF0 then
      match rest with
      | b1 :: b2 :: b3 :: r =>
        if decide (0x90 ≤ b1 ∧ b1 ≤ 0xBF) && utf8Cont b2 && utf8Cont b3 then
          (utf8DecodeGo fuel r).map (fun cs =>
            Char.ofNat ((b1 - 0x80) * 0x1000 + (b2 - 0x80) * 0x40 +
              (b3 - 0x80)) :: cs)
        else none
      | _ => none
    else if 0xF1 ≤ b0 ∧ b0 ≤ 0xF3 then
      match rest with
      | b1 :: b2 :: b3 :: r =>
        if utf8Cont b1 && utf8Cont b2 && utf8Cont b3 then
          (utf8DecodeGo fuel r).map (fun cs =>
            Char.ofNat ((b0 - 0xF0) * 0x40000 + (b1 - 0x80) * 0x1000 +
              (b2 - 0x80) * 0x40 + (b3 - 0x80)) :: cs)
        else none
      | _ => none
    else if b0 = 0xF4 then
      match rest with
      | b1 :: b2 :: b3 :: r =>
        if decide (0x80 ≤ b1 ∧ b1 ≤ 0x8F) && utf8Cont b2 && utf8Cont b3 then
          (utf8DecodeGo fuel r).map (fun cs =>
            Char.ofNat (0x100000 + (b1 - 0x80) * 0x1000 + (b2 - 0x80) * 0x40 +
              (b3 - 0x80)) :: cs)
        else none
      | _ => none
    else none

/-- `String::from_utf8` over a byte list: validates and decodes, or rejects. -/
def utf8Decode (l : List Nat) : Option String :=
  (utf8DecodeGo l.length l).map String.mk

/-- Rust's `str::parse::<u64>`: optional single leading '+', then a nonempty
run of ASCII decimal digits; rejects anything else and values ≥ 2^64. -/
def parseU64 (s : String) : Option Nat :=
  let ds := match s.data with
    | '+' :: rest => rest
    | cs => cs
  if ds.isEmpty then none
  else if ds.all (fun c => c.isDigit) then
    let v := ds.foldl (fun acc c => acc * 10 + (c.toNat - '0'.toNat)) 0
    if v < 2 ^ 64 then some v else none
  else none

/-- `cache_list.get(&key)` (src/sophon/src/sophon/chunk.rs line 94), over
the chunk-name → decompressed-size map modelled as an association list. -/
def cacheGet (cache : List (String × Int)) (key : String) : Option Int :=
  cache.lookup key

/-- Decoding of one leveldb index entry in `chunk_diff`'s extraction loop
(src/sophon/src/sophon/chunk.rs lines 82-97): a key that is not UTF-8 is
skipped; a value that is not UTF-8 or not a decimal u64 is skipped; a key
absent from the cache list is not wanted; otherwise the triple
(key, offset, size) is collected. -/
def decodeIndexEntry (cache : List (String × Int))
    (e : List Nat × List Nat) : Option (String × Nat × Int) :=
  match utf8Decode e.1 with
  | none => none
  | some key =>
    match (utf8Decode e.2).bind parseU64 with
    | none => none
    | some value =>
      match cacheGet cache key with
      | some size => some (key, value, size)
      | none => none

/-- The whole index-iteration loop of `chunk_diff`
(src/sophon/src/sophon/chunk.rs lines 79-97): every entry is decoded
independently and the collected triples are exactly the successfully decoded
wanted ones, in iteration order; the loop itself never fails. -/
def collectExtractedChunks (cache : List (String × Int))
    (entries : List (List Nat × List Nat)) : List (String × Nat × Int) :=
  entries.filterMap (decodeIndexEntry cache)

/-- Rust's `as usize` cast of an i64 on a 64-bit target: two's-complement
reduction mod 2^64. -/
def intToUsize (i : Int) : Nat := (i % (2 ^ 64 : Int)).toNat

/-- One chunk record of `proto::chunk::SophonChunkProto`, with the fields
`chunk_diff` reads: name, decompressed byte size (i64), and destination
offset within the owning asset (i64). -/
structure AssetChunk where
  chunk_name : String
  chunk_size_decompressed : Int
  chunk_on_file_offset : Int
deriving DecidableEq, Repr

/-- The per-asset scatter-gather assembly of `chunk_diff`
(src/sophon/src/sophon/chunk.rs lines 243-270). `staging` models the
staging directory: the file `temp_path/<chunk_name>` and its contents
(`none` when the path does not exist; `read_chunk_data`'s failure modes
return an empty vector, which the empty-buffer guard also skips). The
buffer starts empty (`Vec::with_capacity` pre-sizes but does not fill); for
each chunk with staged data the buffer is grown with zeros to
`offset + data.len()` if shorter, then the data is copied at `offset`. The
source runs the chunk copies in parallel under a mutex; the fold models one
interleaving (manifest order), which determines the result whenever staged
destination ranges are disjoint. -/
def assembleAsset (staging : String → Option (List Nat))
    (asset_chunks : List AssetChunk) : List Nat :=
  asset_chunks.foldl (fun buf chunk =>
    match staging chunk.chunk_name with
    | none => buf
    | some data =>
      if data.isEmpty then buf
      else
        let offset := intToUsize chunk.chunk_on_file_offset
        let grown :=
          if buf.length < offset + data.length then
            buf ++ List.replicate (offset + data.length - buf.length) 0
          else buf
        grown.take offset ++ data ++ grown.drop (offset + data.length)) []

/-- Whether `chunk_diff` writes the asset's output file
(src/sophon/src/sophon/chunk.rs line 282): only a nonempty assembled buffer
is flushed to `output_path/<asset_name>`. -/
def assetIsWritten (staging : String → Option (List Nat))
    (asset_chunks : List AssetChunk) : Bool :=
  !(assembleAsset staging asset_chunks).isEmpty

/-- The asset of end-to-end scenario B: chunk "c1" (60 bytes at offset 0)
and chunk "c2" (40 bytes at offset 60). -/
def chunksB : List AssetChunk := [⟨"c1", 60, 0⟩, ⟨"c2", 40, 60⟩]

/-- Staging state of scenario B: "c1" staged with a concrete 60-byte
payload, "c2" missing from every blob and hence never staged. -/
def stagingB : String → Option (List Nat) :=
  fun n => if n = "c1" then some (List.replicate 60 7) else none

/-- Concrete manifest of end-to-end scenario C: one asset group "data.bin"
of size 200 whose single ldiff asset has `original_file_size = 0`,
empty original path, and `hdiff_file_size = 50`. -/
def manifestC : SophonManifestProto :=
  ⟨[⟨"data.bin", 200, some ⟨[⟨"ldiff_c", 0, "", 50, 0⟩]⟩⟩]⟩

/-- The available chunk names of scenario C. -/
def chunkNamesC : List String := ["ldiff_c"]

end SophonPatcher

namespace SophonPatcher

/-- Claim C3, counterexample: on scenario C's manifest the diff-plan builder
does not produce the entry with patch file name "data.bin.hdiff" that the
claim states; the patch file name it produces is the bare asset name. -/
theorem make_diff_map_scenarioC_ne_claimed :
    make_diff_map manifestC chunkNamesC ≠
      [⟨"", "data.bin", "data.bin.hdiff"⟩] := by
  decide

/-- Claim C3 (amended): on scenario C's manifest the diff-plan builder
produces exactly one entry, with source equal to the chunk's
`original_file_path` (here empty), target "data.bin", and patch file name
"data.bin" (no ".hdiff" suffix on this branch). -/
theorem make_diff_map_scenarioC :
    make_diff_map manifestC chunkNamesC = [⟨"", "data.bin", "data.bin"⟩] := by
  decide

/-- Claim C7: for every manifest asset group and every available ldiff asset
of it with nonzero `original_file_size`, the per-chunk decision emits
exactly the diff entry ⟨original_file_path, asset name, asset name ++
".hdiff"⟩, and that entry is in the flat plan `make_diff_map` produces. -/
theorem make_diff_map_nonzero_original (m : SophonManifestProto)
    (names : List String) (g : AssetGroup) (d : AssetData) (a : Asset)
    (hg : g ∈ m.assets) (hd : g.asset_data = some d) (ha : a ∈ d.assets)
    (hav : chunkAvailable names a = true)
    (h : a.original_file_size ≠ 0) :
    mkDiffEntry g.asset_name g.asset_size a =
      some ⟨a.original_file_path, g.asset_name, g.asset_name ++ ".hdiff"⟩ ∧
    (⟨a.original_file_path, g.asset_name, g.asset_name ++ ".hdiff"⟩ :
      HDiffData) ∈ make_diff_map m names := by
  have hone : mkDiffEntry g.asset_name g.asset_size a =
      some ⟨a.original_file_path, g.asset_name, g.asset_name ++ ".hdiff"⟩ := by
    simp [mkDiffEntry, h]
  refine ⟨hone, ?_⟩
  unfold make_diff_map
  rw [List.mem_flatten]
  refine ⟨(d.assets.filter (chunkAvailable names)).filterMap
    (fun a => mkDiffEntry g.asset_name g.asset_size a), ?_, ?_⟩
  · rw [List.mem_filterMap]
    exact ⟨g, hg, by rw [hd]⟩
  · rw [List.mem_filterMap]
    exact ⟨a, List.mem_filter.mpr ⟨ha, hav⟩, hone⟩

/-- Claim C7, witness: a concrete one-group manifest whose one available
chunk has `original_file_size = 7`; the emitted entry is
⟨"old/file", "data.bin", "data.bin.hdiff"⟩ and it is in the plan. -/
theorem make_diff_map_nonzero_original_witness :
    (⟨"g", 7, "old/file", 3, 0⟩ : Asset) ∈
      (⟨[⟨"g", 7, "old/file", 3, 0⟩]⟩ : AssetData).assets ∧
    chunkAvailable ["g"] ⟨"g", 7, "old/file", 3, 0⟩ = true ∧
    mkDiffEntry "data.bin" 100 ⟨"g", 7, "old/file", 3, 0⟩ =
      some ⟨"old/file", "data.bin", "data.bin.hdiff"⟩ ∧
    (⟨"old/file", "data.bin", "data.bin.hdiff"⟩ : HDiffData) ∈
      make_diff_map ⟨[⟨"data.bin", 100, some ⟨[⟨"g", 7, "old/file", 3, 0⟩]⟩⟩]⟩
        ["g"] := by
  refine ⟨by decide, by decide, ?_⟩
  have h := make_diff_map_nonzero_original
    ⟨[⟨"data.bin", 100, some ⟨[⟨"g", 7, "old/file", 3, 0⟩]⟩⟩]⟩ ["g"]
    ⟨"data.bin", 100, some ⟨[⟨"g", 7, "old/file", 3, 0⟩]⟩⟩
    ⟨[⟨"g", 7, "old/file", 3, 0⟩]⟩ ⟨"g", 7, "old/file", 3, 0⟩
    (by decide) rfl (by decide) (by decide) (by decide)
  exact h

/-- Claim C8: an available chunk with `original_file_size = 0` and
`hdiff_file_size` equal to the asset's size yields no per-chunk plan entry,
and a one-group manifest holding only such a chunk yields an empty plan. -/
theorem make_diff_map_payload_equals_size (asset_name : String)
    (asset_size : Int) (a : Asset) (names : List String)
    (h0 : a.original_file_size = 0) (h1 : a.hdiff_file_size = asset_size) :
    mkDiffEntry asset_name asset_size a = none ∧
    make_diff_map ⟨[⟨asset_name, asset_size, some ⟨[a]⟩⟩]⟩ names = [] := by
  have hnone : mkDiffEntry asset_name asset_size a = none := by
    simp [mkDiffEntry, h0, h1]
  refine ⟨hnone, ?_⟩
  cases hav : chunkAvailable names a <;>
    simp [make_diff_map, List.filter, hav, hnone]

/-- Claim C8, witness: concrete chunk with zero original size and payload
size 200 equal to the asset size 200 produces no entry and an empty plan. -/
theorem make_diff_map_payload_equals_size_witness :
    (⟨"g", 0, "", 200, 0⟩ : Asset).original_file_size = 0 ∧
    (⟨"g", 0, "", 200, 0⟩ : Asset).hdiff_file_size = (200 : Int) ∧
    mkDiffEntry "data.bin" 200 ⟨"g", 0, "", 200, 0⟩ = none ∧
    make_diff_map ⟨[⟨"data.bin", 200, some ⟨[⟨"g", 0, "", 200, 0⟩]⟩⟩]⟩ ["g"]
      = [] := by
  refine ⟨rfl, rfl, ?_⟩
  exact make_diff_map_payload_equals_size "data.bin" 200
    ⟨"g", 0, "", 200, 0⟩ ["g"] rfl rfl

/-- Claim C4, counterexample: an available chunk with
`original_file_size = 0`, `hdiff_file_size = 50` different from the asset
size 200, but `original_file_path = "old.bin"`, yields a payload-only entry
whose source file name is "old.bin", not the empty string: the builder
copies the chunk's `original_file_path` verbatim. -/
theorem mkDiffEntry_payload_only_source_nonempty :
    mkDiffEntry "data.bin" 200 ⟨"g", 0, "old.bin", 50, 0⟩ =
      some ⟨"old.bin", "data.bin", "data.bin"⟩ ∧
    ("old.bin" : String) ≠ "" := by
  decide

/-- Claim C4 (amended): for every manifest asset group and every available
chunk of it with `original_file_size = 0` and `hdiff_file_size` different
from the asset's size, exactly one payload-only entry is emitted, whose
source file name is the chunk's `original_file_path` (empty exactly when
that field is empty), and that entry is in the flat plan. -/
theorem make_diff_map_payload_only_entry (m : SophonManifestProto)
    (names : List String) (g : AssetGroup) (d : AssetData) (a : Asset)
    (hg : g ∈ m.assets) (hd : g.asset_data = some d) (ha : a ∈ d.assets)
    (hav : chunkAvailable names a = true)
    (h0 : a.original_file_size = 0) (h1 : a.hdiff_file_size ≠ g.asset_size) :
    mkDiffEntry g.asset_name g.asset_size a =
      some ⟨a.original_file_path, g.asset_name, g.asset_name⟩ ∧
    (⟨a.original_file_path, g.asset_name, g.asset_name⟩ : HDiffData) ∈
      make_diff_map m names := by
  have hone : mkDiffEntry g.asset_name g.asset_size a =
      some ⟨a.original_file_path, g.asset_name, g.asset_name⟩ := by
    simp [mkDiffEntry, h0, h1]
  refine ⟨hone, ?_⟩
  unfold make_diff_map
  rw [List.mem_flatten]
  refine ⟨(d.assets.filter (chunkAvailable names)).filterMap
    (fun a => mkDiffEntry g.asset_name g.asset_size a), ?_, ?_⟩
  · rw [List.mem_filterMap]
    exact ⟨g, hg, by rw [hd]⟩
  · rw [List.mem_filterMap]
    exact ⟨a, List.mem_filter.mpr ⟨ha, hav⟩, hone⟩

/-- Claim C4 (amended), witness: the concrete chunk of the counterexample,
inside a one-group manifest; its payload-only entry carries source
"old.bin" and is in the plan. -/
theorem make_diff_map_payload_only_entry_witness :
    (⟨"g", 0, "old.bin", 50, 0⟩ : Asset) ∈
      (⟨[⟨"g", 0, "old.bin", 50, 0⟩]⟩ : AssetData).assets ∧
    chunkAvailable ["g"] ⟨"g", 0, "old.bin", 50, 0⟩ = true ∧
    mkDiffEntry "data.bin" 200 ⟨"g", 0, "old.bin", 50, 0⟩ =
      some ⟨"old.bin", "data.bin", "data.bin"⟩ ∧
    (⟨"old.bin", "data.bin", "data.bin"⟩ : HDiffData) ∈
      make_diff_map
        ⟨[⟨"data.bin", 200, some ⟨[⟨"g", 0, "old.bin", 50, 0⟩]⟩⟩]⟩ ["g"] := by
  refine ⟨by decide, by decide, ?_⟩
  exact make_diff_map_payload_only_entry
    ⟨[⟨"data.bin", 200, some ⟨[⟨"g", 0, "old.bin", 50, 0⟩]⟩⟩]⟩ ["g"]
    ⟨"data.bin", 200, some ⟨[⟨"g", 0, "old.bin", 50, 0⟩]⟩⟩
    ⟨[⟨"g", 0, "old.bin", 50, 0⟩]⟩ ⟨"g", 0, "old.bin", 50, 0⟩
    (by decide) rfl (by decide) (by decide) rfl (by decide)

/-- Claim C10: every entry of the plan built by `make_diff_map` names as
its patch file exactly the file name that `ldiff_file` writes for that
asset (asset name with ".hdiff" appended when the chunk's
`original_file_size` is nonzero, the bare asset name when it is zero). -/
theorem make_diff_map_patch_name_matches_ldiff_output
    (m : SophonManifestProto) (names : List String) (e : HDiffData)
    (he : e ∈ make_diff_map m names) :
    ∃ g d a, g ∈ m.assets ∧ g.asset_data = some d ∧ a ∈ d.assets ∧
      chunkAvailable names a = true ∧
      mkDiffEntry g.asset_name g.asset_size a = some e ∧
      e.patch_file_name = ldiff_file_output_name a g.asset_name := by
  unfold make_diff_map at he
  rw [List.mem_flatten] at he
  obtain ⟨l, hl, hel⟩ := he
  rw [List.mem_filterMap] at hl
  obtain ⟨g, hg, hgl⟩ := hl
  cases hd : g.asset_data with
  | none => rw [hd] at hgl; exact absurd hgl (by simp)
  | some d =>
    rw [hd] at hgl
    have hleq : l = (d.assets.filter (chunkAvailable names)).filterMap
        (fun a => mkDiffEntry g.asset_name g.asset_size a) := by
      injection hgl with h; exact h.symm
    subst hleq
    rw [List.mem_filterMap] at hel
    obtain ⟨a, haf, hae⟩ := hel
    rcases List.mem_filter.mp haf with ⟨ha, hav⟩
    refine ⟨g, d, a, hg, hd, ha, hav, hae, ?_⟩
    unfold mkDiffEntry at hae
    unfold ldiff_file_output_name
    by_cases hz : a.original_file_size = 0
    · rw [if_neg (by simp [hz])] at hae
      by_cases hs : a.hdiff_file_size = g.asset_size
      · rw [if_neg (by simp [hs])] at hae
        exact absurd hae (by simp)
      · rw [if_pos hs] at hae
        injection hae with h
        rw [← h]
        simp [hz]
    · rw [if_pos hz] at hae
      injection hae with h
      rw [← h]
      simp [hz]

/-- Claim C10, witness: in a two-group plan, both a diff entry and a
payload-only entry have a patch file name equal to the name `ldiff_file`
writes for the corresponding asset. -/
theorem make_diff_map_patch_name_matches_ldiff_output_witness :
    ((⟨"p", "a.bin", "a.bin.hdiff"⟩ : HDiffData) ∈
      make_diff_map ⟨[⟨"a.bin", 10, some ⟨[⟨"g1", 4, "p", 3, 0⟩]⟩⟩,
        ⟨"b.bin", 20, some ⟨[⟨"g2", 0, "", 5, 0⟩]⟩⟩]⟩ ["g1", "g2"]) ∧
    (∃ g d a, g ∈ (⟨[⟨"a.bin", 10, some ⟨[⟨"g1", 4, "p", 3, 0⟩]⟩⟩,
        ⟨"b.bin", 20, some ⟨[⟨"g2", 0, "", 5, 0⟩]⟩⟩]⟩ :
          SophonManifestProto).assets ∧
      g.asset_data = some d ∧ a ∈ d.assets ∧
      chunkAvailable ["g1", "g2"] a = true ∧
      mkDiffEntry g.asset_name g.asset_size a =
        some ⟨"p", "a.bin", "a.bin.hdiff"⟩ ∧
      (⟨"p", "a.bin", "a.bin.hdiff"⟩ : HDiffData).patch_file_name =
        ldiff_file_output_name a g.asset_name) := by
  refine ⟨by decide, ?_⟩
  exact make_diff_map_patch_name_matches_ldiff_output
    ⟨[⟨"a.bin", 10, some ⟨[⟨"g1", 4, "p", 3, 0⟩]⟩⟩,
      ⟨"b.bin", 20, some ⟨[⟨"g2", 0, "", 5, 0⟩]⟩⟩]⟩ ["g1", "g2"]
    ⟨"p", "a.bin", "a.bin.hdiff"⟩ (by decide)

/-- Claim C2, counterexample: in a chunk directory holding the two blob
files "blob_a" and "blob_b", the index iterated while processing "blob_b"
is not "blob_b_db": `chunk_diff` opens one database — the first file's —
before the parallel loop and iterates it for every blob file. -/
theorem chunk_diff_database_not_per_blob :
    chunk_diff_database_for_entry
        [⟨"blob_a", false⟩, ⟨"blob_b", false⟩] ⟨"blob_b", false⟩ ≠
      some ((⟨"blob_b", false⟩ : DirEntry).file_name ++ "_db") := by
  decide

/-- Claim C2 (amended): the chunk index opened and iterated is the single
store named after the first (non-directory) entry of the chunk directory,
`<first_file_name>_db`, and it is the same for every blob file processed. -/
theorem chunk_diff_database_is_first_file (e0 : DirEntry)
    (es : List DirEntry) (entry : DirEntry) (h0 : e0.is_dir = false) :
    chunk_diff_database_for_entry (e0 :: es) entry =
      some (e0.file_name ++ "_db") := by
  unfold chunk_diff_database_for_entry chunk_diff_database
  rw [List.find?_cons_of_pos _ (by simp [h0])]
  rfl

/-- Claim C2 (amended), witness: with blob files "blob_a" and "blob_b", the
index used while processing "blob_b" is "blob_a_db". -/
theorem chunk_diff_database_is_first_file_witness :
    (⟨"blob_a", false⟩ : DirEntry).is_dir = false ∧
    chunk_diff_database_for_entry
        [⟨"blob_a", false⟩, ⟨"blob_b", false⟩] ⟨"blob_b", false⟩ =
      some ("blob_a" ++ "_db") :=
  ⟨rfl, chunk_diff_database_is_first_file ⟨"blob_a", false⟩
    [⟨"blob_b", false⟩] ⟨"blob_b", false⟩ rfl⟩

/-- Claim C5: evaluation at the failing input. With output path "/game" and
chunk "c1", the memory-mapped extraction path stages the chunk at the
run's staging directory "/game/chunk_tmp/c1" — exactly where the assembler
reads it — but the buffered-reader extraction path writes to the
current-directory-relative "chunk_tmp/c1" instead, which is not the
staging path the claim (and the assembler) names. -/
theorem bufreader_staged_path_not_staging_dir :
    mmap_staged_path "/game" "c1" = assembler_chunk_path "/game" "c1" ∧
    bufreader_staged_path "c1" = "chunk_tmp/c1" ∧
    bufreader_staged_path "c1" ≠ assembler_chunk_path "/game" "c1" := by
  decide

/-- Claim C6: for one blob byte content, offset and length with
offset + length within the blob, the memory-mapped slice path and the
buffered seek-and-read-exact path return identical bytes, and the
threshold dispatch returns those same bytes whichever branch it takes, so
the equality covers blobs below and above the 10 MiB threshold. -/
theorem read_slice_paths_agree (blob : List Nat) (offset size : Nat)
    (h : offset + size ≤ blob.length) :
    mmapReadSlice blob offset size = bufReadSlice blob offset size ∧
    readChunkSlice blob offset size =
      some ((blob.drop offset).take size) := by
  have hm : mmapReadSlice blob offset size =
      some ((blob.drop offset).take size) := by
    unfold mmapReadSlice
    rw [if_pos h]
  have hb : bufReadSlice blob offset size =
      some ((blob.drop offset).take size) := by
    unfold bufReadSlice
    rw [if_pos (by rw [List.length_drop]; omega)]
  refine ⟨hm.trans hb.symm, ?_⟩
  unfold readChunkSlice
  by_cases hl : blob.length > LARGE_FILE_THRESHOLD
  · rw [if_pos hl]; exact hm
  · rw [if_neg hl]; exact hb

/-- Claim C6, witness: the two read paths agree on the 4-byte blob
[5, 6, 7, 8] at offset 1, length 2 (below the threshold), and the dispatch
returns the in-bounds slice of a blob one byte above the 10 MiB threshold
at offset 0, length 1. -/
theorem read_slice_paths_agree_witness :
    (1 + 2 ≤ ([5, 6, 7, 8] : List Nat).length ∧
      mmapReadSlice [5, 6, 7, 8] 1 2 = bufReadSlice [5, 6, 7, 8] 1 2) ∧
    (0 + 1 ≤ (List.replicate (LARGE_FILE_THRESHOLD + 1) (0 : Nat)).length ∧
      readChunkSlice (List.replicate (LARGE_FILE_THRESHOLD + 1) 0) 0 1 =
        some (((List.replicate (LARGE_FILE_THRESHOLD + 1)
          (0 : Nat)).drop 0).take 1)) := by
  constructor
  · exact ⟨by decide, (read_slice_paths_agree [5, 6, 7, 8] 1 2 (by decide)).1⟩
  · refine ⟨by rw [List.length_replicate]; omega, ?_⟩
    exact (read_slice_paths_agree _ 0 1
      (by rw [List.length_replicate]; omega)).2

/-- Claim C9: a chunk-index entry whose key is not valid UTF-8 or whose
value does not decode to a decimal u64 is skipped silently — the collected
triples are exactly those of the same iteration without it (the loop is
total, so no error is raised) — and every well-formed entry whose key is
in the wanted cache is still collected. -/
theorem malformed_index_entry_skipped (cache : List (String × Int))
    (l1 l2 : List (List Nat × List Nat)) (k v : List Nat)
    (hbad : utf8Decode k = none ∨ (utf8Decode v).bind parseU64 = none) :
    collectExtractedChunks cache (l1 ++ (k, v) :: l2) =
      collectExtractedChunks cache (l1 ++ l2) ∧
    ∀ e ∈ l1 ++ l2, ∀ r, decodeIndexEntry cache e = some r →
      r ∈ collectExtractedChunks cache (l1 ++ (k, v) :: l2) := by
  have hnone : decodeIndexEntry cache (k, v) = none := by
    rcases hbad with h | h
    · simp [decodeIndexEntry, h]
    · cases hk : utf8Decode k with
      | none => simp [decodeIndexEntry, hk]
      | some s => simp [decodeIndexEntry, hk, h]
  constructor
  · unfold collectExtractedChunks
    rw [List.filterMap_append, List.filterMap_append, List.filterMap_cons,
      hnone]
  · intro e he r hr
    unfold collectExtractedChunks
    rw [List.mem_filterMap]
    refine ⟨e, ?_, hr⟩
    rcases List.mem_append.mp he with h | h
    · exact List.mem_append.mpr (Or.inl h)
    · exact List.mem_append.mpr (Or.inr (List.mem_cons_of_mem _ h))

/-- Claim C9, witness: with the byte 0xFF as a (non-UTF-8) key, the entry
is skipped, the collected list is unchanged, and the well-formed entry
with key "chunk1" (wanted, size 5) and value "7" is still collected. -/
theorem malformed_index_entry_skipped_witness :
    (utf8Decode [0xFF] = none ∨
      (utf8Decode [0x37]).bind parseU64 = none) ∧
    (collectExtractedChunks [("chunk1", (5 : Int))]
        ([] ++ ([0xFF], [0x37]) ::
          [([0x63, 0x68, 0x75, 0x6E, 0x6B, 0x31], [0x37])]) =
      collectExtractedChunks [("chunk1", (5 : Int))]
        ([] ++ [([0x63, 0x68, 0x75, 0x6E, 0x6B, 0x31], [0x37])]) ∧
    ∀ e ∈ ([] ++ [([0x63, 0x68, 0x75, 0x6E, 0x6B, 0x31], [0x37])] :
        List (List Nat × List Nat)), ∀ r,
      decodeIndexEntry [("chunk1", (5 : Int))] e = some r →
      r ∈ collectExtractedChunks [("chunk1", (5 : Int))]
        ([] ++ ([0xFF], [0x37]) ::
          [([0x63, 0x68, 0x75, 0x6E, 0x6B, 0x31], [0x37])])) := by
  refine ⟨Or.inl (by decide), ?_⟩
  exact malformed_index_entry_skipped [("chunk1", (5 : Int))] []
    [([0x63, 0x68, 0x75, 0x6E, 0x6B, 0x31], [0x37])] [0xFF] [0x37]
    (Or.inl (by decide))

/-- Claim C1, counterexample: in scenario B (asset declared 100 bytes,
chunk "c1" of 60 bytes at offset 0 staged, chunk "c2" never staged), the
assembled buffer is 60 bytes, not the 100 bytes the claim states: the
buffer only grows to the largest offset + staged length among staged
chunks, so the trailing range of the missing chunk is never zero-filled. -/
theorem assemble_scenarioB_not_100_bytes :
    (assembleAsset stagingB chunksB).length = 60 ∧
    (assembleAsset stagingB chunksB).length ≠ 100 := by
  decide

/-- Claim C1 (amended): in scenario B the output file is still written,
and its content is exactly chunk c1's 60-byte staged payload — bytes
[0, 60) equal c1's payload, and no bytes exist beyond offset 60 (the
declared asset size of 100 is not consulted and the missing chunk's range
is not zero-padded). -/
theorem assemble_scenarioB (p : List Nat)
    (staging : String → Option (List Nat)) (hp : p.length = 60)
    (h1 : staging "c1" = some p) (h2 : staging "c2" = none) :
    assembleAsset staging chunksB = p ∧
    assetIsWritten staging chunksB = true := by
  have hne : p.isEmpty = false := by
    cases p with
    | nil => simp at hp
    | cons a t => rfl
  have hmain : assembleAsset staging chunksB = p := by
    unfold assembleAsset chunksB
    rw [List.foldl_cons, List.foldl_cons, List.foldl_nil]
    simp only [h1, h2, hne]
    have hoff : intToUsize (0 : Int) = 0 := by decide
    simp only [hoff, Bool.false_eq_true, if_false]
    rw [if_pos (by simp [hp])]
    simp [List.drop_replicate]
  refine ⟨hmain, ?_⟩
  unfold assetIsWritten
  rw [hmain]
  simp [hne]

/-- Claim C1 (amended), witness: with the concrete 60-byte payload of
sixty 7s staged for "c1" and nothing for "c2", assembly returns exactly
that payload and the output file is written. -/
theorem assemble_scenarioB_witness :
    (List.replicate 60 (7 : Nat)).length = 60 ∧
    stagingB "c1" = some (List.replicate 60 7) ∧
    stagingB "c2" = none ∧
    assembleAsset stagingB chunksB = List.replicate 60 7 ∧
    assetIsWritten stagingB chunksB = true := by
  refine ⟨by decide, by decide, by decide, ?_⟩
  exact assemble_scenarioB (List.replicate 60 7) stagingB
    (by decide) (by decide) (by decide)

end SophonPatcher
